import Mathlib

/-!
Verification development for the options-flow dashboard (src/Dashboard.py).

The dashboard's analytical core is embedded shallowly:

* a database row of the `options_activity` table becomes a `TradeRecord`;
  nullable / coercible columns (`expiration_date`, `option_type`, `sentiment`,
  `premium_usd`, `market_cap_ingested`) are `Option`-typed, with `none`
  standing for SQL NULL / pandas NaN / an unparseable value;
* monetary amounts are rationals (the Python floats are used only for exact
  sums, quotients and comparisons in the code paths treated here);
* the external market-data service is an explicit oracle (`Provider` for the
  per-ticker lookups of `analyze_ticker_dashboard`, `AttemptOutcome` oracles
  for the retry loop of `get_current_price`), so that the pure aggregation
  logic is separated from I/O;
* Python string operations (`str.upper`, `str.strip`) are modelled for the
  ASCII data that flows through this program (`upperStr`, `trimStr`);
* pandas sorts are modelled with `List.insertionSort` (a stable sort; the
  claims proved here do not depend on tie order).
-/

namespace Dashboard

/-- ASCII uppercase of one character, as Python `str.upper` acts on the
ASCII ticker symbols and labels this program handles. -/
def upChar (c : Char) : Char :=
  if 'a' ≤ c ∧ c ≤ 'z' then Char.ofNat (c.toNat - 32) else c

/-- Model of Python `str.upper` on ASCII strings. -/
def upperStr (s : String) : String := ⟨s.data.map upChar⟩

/-- ASCII whitespace, as stripped by Python `str.strip`. -/
def isSpaceChar (c : Char) : Bool :=
  c = ' ' || c = '\t' || c = '\n' || c = '\r'

/-- Model of Python `str.strip` on ASCII strings. -/
def trimStr (s : String) : String :=
  ⟨((s.data.dropWhile isSpaceChar).reverse.dropWhile isSpaceChar).reverse⟩

/-- Code-point lexicographic order on character lists: the order Python uses
to sort strings (`sorted(...)` over ticker symbols). -/
def charListLe : List Char → List Char → Bool
  | [], _ => true
  | _ :: _, [] => false
  | a :: as, b :: bs =>
    if a.toNat < b.toNat then true
    else if b.toNat < a.toNat then false
    else charListLe as bs

/-- Boolean string order backing Python `sorted` on ticker symbols. -/
def strLe (a b : String) : Bool := charListLe a.data b.data

/-- Propositional form of `strLe`, used as the sort relation for tickers. -/
def tickLe (a b : String) : Prop := strLe a b = true

instance : DecidableRel tickLe := fun a b => Bool.decEq (strLe a b) true

/-- First-occurrence duplicate removal (pandas `Series.unique` keeps the
first occurrence of each value). `seen` accumulates values already kept. -/
def distinctAux [DecidableEq α] (seen : List α) : List α → List α
  | [] => []
  | a :: as => if a ∈ seen then distinctAux seen as else a :: distinctAux (a :: seen) as

/-- The distinct values of a list, first occurrences first (pandas
`Series.unique`). -/
def distinctInOrder [DecidableEq α] (l : List α) : List α := distinctAux [] l

theorem mem_distinctAux [DecidableEq α] (x : α) :
    ∀ (l seen : List α), x ∈ distinctAux seen l ↔ x ∈ l ∧ x ∉ seen
  | [], seen => by simp [distinctAux]
  | a :: as, seen => by
    by_cases ha : a ∈ seen
    · simp only [distinctAux, if_pos ha, mem_distinctAux x as seen, List.mem_cons]
      constructor
      · rintro ⟨hx, hns⟩
        exact ⟨Or.inr hx, hns⟩
      · rintro ⟨hx | hx, hns⟩
        · exact absurd (hx ▸ ha) hns
        · exact ⟨hx, hns⟩
    · simp only [distinctAux, if_neg ha, List.mem_cons, mem_distinctAux x as (a :: seen)]
      constructor
      · rintro (hx | ⟨hx, hns⟩)
        · exact ⟨Or.inl hx, hx ▸ ha⟩
        · exact ⟨Or.inr hx, fun h => hns (Or.inr h)⟩
      · rintro ⟨hx | hx, hns⟩
        · exact Or.inl hx
        · by_cases hxa : x = a
          · exact Or.inl hxa
          · refine Or.inr ⟨hx, fun h => ?_⟩
            rcases h with h1 | h2
            · exact hxa h1
            · exact hns h2

theorem mem_distinctInOrder [DecidableEq α] (x : α) (l : List α) :
    x ∈ distinctInOrder l ↔ x ∈ l := by
  simp [distinctInOrder, mem_distinctAux]

/-- One row of the `options_activity` table after the column coercions of
`fetch_options_activity_for_range`. Dates are day numbers. -/
structure TradeRecord where
  dataDate : Int
  underlyingTicker : String
  expirationDate : Option Int
  optionType : Option String
  sentiment : Option String
  premiumUsd : Option ℚ
  marketCapIngested : Option ℚ
deriving DecidableEq

/-- The premium of a record, with a missing value read as 0 (matches both
`fillna(0)` at fetch time and summation semantics after `dropna`). -/
def premOf (r : TradeRecord) : ℚ := r.premiumUsd.getD 0

/-- Whether the premium column is non-null for this record. -/
def hasPremium (r : TradeRecord) : Bool := r.premiumUsd.isSome

/-- Sum of the premium column over a record list (pandas `Series.sum`). -/
def premSum (l : List TradeRecord) : ℚ := (l.map premOf).sum

theorem premSum_nil : premSum [] = 0 := rfl

theorem premSum_cons (r : TradeRecord) (l : List TradeRecord) :
    premSum (r :: l) = premOf r + premSum l := by
  simp [premSum]

/-- Splitting a premium sum along two mutually exclusive Boolean predicates:
the whole sum is the part matching the first, plus the part matching the
second, plus the part matching neither. -/
theorem premSum_filter_split (c q : TradeRecord → Bool)
    (hdisj : ∀ r, c r = true → q r = true → False) :
    ∀ l : List TradeRecord,
      premSum l = premSum (l.filter c) + premSum (l.filter q)
        + premSum (l.filter fun r => !c r && !q r)
  | [] => by simp [premSum]
  | r :: l => by
    have ih := premSum_filter_split c q hdisj l
    by_cases hc : c r = true
    · have hq : q r = false := by
        cases hq2 : q r
        · rfl
        · exact absurd (hdisj r hc hq2) id
      simp [List.filter_cons, hc, hq, premSum_cons, ih]
      ring
    · have hc2 : c r = false := Bool.eq_false_iff.mpr hc
      by_cases hq : q r = true
      · simp [List.filter_cons, hc2, hq, premSum_cons, ih]
        ring
      · have hq2 : q r = false := Bool.eq_false_iff.mpr hq
        simp [List.filter_cons, hc2, hq2, premSum_cons, ih]
        ring

/-- The external market-data service as seen by `analyze_ticker_dashboard`:
`currentPrice` is the (already retried, absence-signalling) result of
`get_current_price`, and `historyCloses` is the list of closes returned by
the historical-price window starting at the period start date (empty when
the fetch fails or returns no rows, matching the code's exception path). -/
structure Provider where
  currentPrice : String → Option ℚ
  historyCloses : String → Int → List ℚ

/-- Line 139 of `Dashboard.py`: a ticker symbol is skipped when it is blank
after stripping or reads `nan` case-insensitively. -/
def skipTicker (t : String) : Bool :=
  trimStr t = "" || upperStr (trimStr t) = "NAN"

/-- Line 136: `sorted(options_df_for_period['underlying_ticker'].unique())`. -/
def uniqueTickersSorted (df : List TradeRecord) : List String :=
  List.insertionSort tickLe (distinctInOrder (df.map (·.underlyingTicker)))

/-- Line 148: the period's records restricted to one ticker by exact
equality (`options_df_for_period['underlying_ticker'] == ticker`). -/
def recordsForTicker (df : List TradeRecord) (t : String) : List TradeRecord :=
  df.filter (fun r => r.underlyingTicker == t)

/-- Descending data-date order used in line 152
(`sort_values(by='data_date', ascending=False)`). -/
def dataDateGe (a b : TradeRecord) : Prop := b.dataDate ≤ a.dataDate

instance : DecidableRel dataDateGe := fun a b => Int.decLe b.dataDate a.dataDate

instance : IsTotal TradeRecord dataDateGe :=
  ⟨fun a b => (le_total b.dataDate a.dataDate).imp id id⟩

instance : IsTrans TradeRecord dataDateGe :=
  ⟨fun _ _ _ hab hbc => le_trans hbc hab⟩

/-- Lines 151-155: the `market_cap_ingested` value of the most recent
record (by `data_date`) of the ticker within the period; `none` when the
ticker has no record or that record's ingested capitalization is null. -/
def latestIngestedMcap (df : List TradeRecord) (t : String) : Option ℚ :=
  match List.insertionSort dataDateGe (recordsForTicker df t) with
  | [] => none
  | r :: _ => r.marketCapIngested

/-- Line 161: `mcap_val_for_calc = mc if notnull(mc) and mc > 0 else 0`. -/
def mcapForCalc : Option ℚ → ℚ
  | some v => if 0 < v then v else 0
  | none => 0

/-- Lines 178-179: `(premium / mcap) * 100000 if mcap > 0 else 0`. -/
def mcapScore (prem cap : ℚ) : ℚ :=
  if 0 < cap then prem / cap * 100000 else 0

/-- Line 172 sentiment match of `analyze_ticker_dashboard`:
`fillna('UNKNOWN').astype(str).str.strip().str.upper() == 'BULLISH'`. -/
def isBullishA (r : TradeRecord) : Bool :=
  upperStr (trimStr (r.sentiment.getD "UNKNOWN")) == "BULLISH"

/-- Line 173 sentiment match, bearish side. -/
def isBearishA (r : TradeRecord) : Bool :=
  upperStr (trimStr (r.sentiment.getD "UNKNOWN")) == "BEARISH"

/-- Line 175 option-type match of `analyze_ticker_dashboard`:
`option_type.str.upper() == 'CALL'` (uppercased, not stripped; a null
option type compares unequal). -/
def isCallA (r : TradeRecord) : Bool :=
  r.optionType.map upperStr == some "CALL"

/-- Line 176 option-type match, put side. -/
def isPutA (r : TradeRecord) : Bool :=
  r.optionType.map upperStr == some "PUT"

/-- One row of the per-ticker summary table built by
`analyze_ticker_dashboard` (lines 196-209). -/
structure TickerRow where
  ticker : String
  marketCap : Option ℚ
  currentPrice : Option ℚ
  priceAtPeriodStart : Option ℚ
  priceChangePct : Option ℚ
  totalPremium : ℚ
  callPremium : ℚ
  putPremium : ℚ
  bullishPremium : ℚ
  bearishPremium : ℚ
  bullishScore : ℚ
  bearishScore : ℚ
deriving DecidableEq

/-- The body of the per-ticker loop of `analyze_ticker_dashboard`
(lines 142-209) for one ticker symbol. -/
def summarizeTicker (p : Provider) (df : List TradeRecord) (startDate : Int)
    (t : String) : TickerRow :=
  let current := p.currentPrice t
  let tickerDf := recordsForTicker df t
  let mcap := latestIngestedMcap df t
  let cap := mcapForCalc mcap
  let cleaned := tickerDf.filter hasPremium
  let closes := p.historyCloses t startDate
  let startPrice := closes.head?
  let pct : Option ℚ :=
    match current, startPrice with
    | some c, some a => if a ≠ 0 then some ((c - a) / a * 100) else none
    | _, _ => none
  { ticker := t
    marketCap := mcap
    currentPrice := current
    priceAtPeriodStart := startPrice
    priceChangePct := pct
    totalPremium := premSum cleaned
    callPremium := premSum (cleaned.filter isCallA)
    putPremium := premSum (cleaned.filter isPutA)
    bullishPremium := premSum (cleaned.filter isBullishA)
    bearishPremium := premSum (cleaned.filter isBearishA)
    bullishScore := mcapScore (premSum (cleaned.filter isBullishA)) cap
    bearishScore := mcapScore (premSum (cleaned.filter isBearishA)) cap }

/-- `analyze_ticker_dashboard` (lines 131-210): one summary row per
distinct, non-skipped ticker symbol of the period's records. -/
def analyzeTickerDashboard (p : Provider) (df : List TradeRecord)
    (startDate : Int) : List TickerRow :=
  if df.isEmpty then []
  else ((uniqueTickersSorted df).filter (fun t => !skipTicker t)).map
    (summarizeTicker p df startDate)

/-- Line 221 of `create_expiration_summary_table`: exact, case-sensitive
match `option_type == 'CALL'`. -/
def isCallE (r : TradeRecord) : Bool := r.optionType == some "CALL"

/-- Line 222: exact match `option_type == 'PUT'`. -/
def isPutE (r : TradeRecord) : Bool := r.optionType == some "PUT"

/-- Line 223: exact match `sentiment == 'Bullish'`. -/
def isBullishE (r : TradeRecord) : Bool := r.sentiment == some "Bullish"

/-- Line 224: exact match `sentiment == 'Bearish'`. -/
def isBearishE (r : TradeRecord) : Bool := r.sentiment == some "Bearish"

/-- Lines 216-217: records surviving the expiration-date coercion and the
`dropna(subset=['expiration_date', 'premium_usd'])`. -/
def keptForExpiration (df : List TradeRecord) : List TradeRecord :=
  df.filter (fun r => r.expirationDate.isSome && r.premiumUsd.isSome)

/-- The records of one expiration-date group. -/
def groupRecords (kept : List TradeRecord) (d : Int) : List TradeRecord :=
  kept.filter (fun r => r.expirationDate == some d)

/-- One row of the expiration summary table (lines 225-236, after the
renames). -/
structure ExpirationRow where
  expirationDate : Int
  daysToExpiry : Int
  totalPremium : ℚ
  uniqueTickers : Nat
  callPremium : ℚ
  putPremium : ℚ
  bullishPremium : ℚ
  bearishPremium : ℚ
  optionsCount : Nat
deriving DecidableEq

/-- Ascending days-to-expiry order of line 230
(`sort_values(by='time_to_expiry_days', ascending=True)`). -/
def daysLe (a b : ExpirationRow) : Prop := a.daysToExpiry ≤ b.daysToExpiry

instance : DecidableRel daysLe := fun a b => Int.decLe a.daysToExpiry b.daysToExpiry

instance : IsTotal ExpirationRow daysLe :=
  ⟨fun a b => (le_total a.daysToExpiry b.daysToExpiry).imp id id⟩

instance : IsTrans ExpirationRow daysLe :=
  ⟨fun _ _ _ hab hbc => le_trans hab hbc⟩

/-- Ascending order on `Int` group keys (pandas `groupby` sorts keys). -/
def intLe (a b : Int) : Prop := a ≤ b

instance : DecidableRel intLe := fun a b => Int.decLe a b

/-- The distinct expiration dates of the kept records, ascending (the
group keys of the `groupby` on line 225; pandas sorts group keys). -/
def expirationKeys (kept : List TradeRecord) : List Int :=
  List.insertionSort intLe (distinctInOrder (kept.filterMap (·.expirationDate)))

/-- The aggregates of lines 220-229 for one expiration-date group. -/
def expirationGroupRow (today : Int) (kept : List TradeRecord) (d : Int) :
    ExpirationRow :=
  let g := groupRecords kept d
  { expirationDate := d
    daysToExpiry := d - today
    totalPremium := premSum g
    uniqueTickers := (distinctInOrder (g.map (·.underlyingTicker))).length
    callPremium := premSum (g.filter isCallE)
    putPremium := premSum (g.filter isPutE)
    bullishPremium := premSum (g.filter isBullishE)
    bearishPremium := premSum (g.filter isBearishE)
    optionsCount := g.length }

/-- Grouping, aggregation and final sort of
`create_expiration_summary_table`, applied to the kept records. -/
def expirationTableOfKept (kept : List TradeRecord) (today : Int) :
    List ExpirationRow :=
  if kept.isEmpty then []
  else List.insertionSort daysLe
    ((expirationKeys kept).map (expirationGroupRow today kept))

/-- `create_expiration_summary_table` (lines 212-237), with the current
date passed explicitly (the code reads `datetime.now().date()`). -/
def createExpirationSummaryTable (df : List TradeRecord) (today : Int) :
    List ExpirationRow :=
  expirationTableOfKept (keptForExpiration df) today

/-- Normalization applied by `fetch_options_activity_for_range` to each
fetched row (lines 123-125): the premium column is coerced and
`fillna(0)`-filled, so it is always present afterwards. -/
def normalizeFetchedRow (r : TradeRecord) : TradeRecord :=
  ⟨r.dataDate, r.underlyingTicker, r.expirationDate, r.optionType,
    r.sentiment, some (premOf r), r.marketCapIngested⟩

/-- The `ORDER BY data_date, underlying_ticker` of the range query. -/
def fetchRowLe (a b : TradeRecord) : Prop :=
  a.dataDate < b.dataDate ∨
    (a.dataDate = b.dataDate ∧ tickLe a.underlyingTicker b.underlyingTicker)

instance : DecidableRel fetchRowLe := fun a b => by
  unfold fetchRowLe
  exact inferInstance

/-- `fetch_options_activity_for_range` (lines 109-129) over an explicit
store: the SQL `WHERE data_date >= :start_date AND data_date <= :end_date`
is embedded as an inclusive filter, followed by the query's ordering and
the column normalization. -/
def fetchOptionsActivityForRange (store : List TradeRecord)
    (startDate endDate : Int) : List TradeRecord :=
  let selected := store.filter
    (fun r => decide (startDate ≤ r.dataDate) && decide (r.dataDate ≤ endDate))
  (List.insertionSort fetchRowLe selected).map normalizeFetchedRow

/-- One attempt of the `get_current_price` loop as seen from outside:
either the `yf` calls raise (`exn`), or they return a fast-info price
(`none` models a missing `last_price`, and Python treats a 0.0 price as
falsy too) together with the closes of the two-day history window. -/
inductive AttemptOutcome where
  | exn : AttemptOutcome
  | data : Option ℚ → List ℚ → AttemptOutcome
deriving DecidableEq

/-- The price one attempt of `get_current_price` produces (lines 57-69):
the fast-info price when truthy, else the last close of the history
window, else nothing. -/
def attemptValue : AttemptOutcome → Option ℚ
  | .exn => none
  | .data fast hist =>
    match fast with
    | some p => if p = 0 then hist.getLast? else some p
    | none => hist.getLast?

/-- The fixed sleep the code runs after a failed first attempt:
`time.sleep(5)` on an empty result (line 75), `time.sleep(15)` on an
exception (line 84). -/
def failureDelay : AttemptOutcome → Nat
  | .exn => 15
  | .data _ _ => 5

/-- The observable outcome of one `get_current_price` call: the returned
price (`none` = Python `None`), how many lookup attempts ran, and the
sleeps taken between them. -/
structure PriceFetch where
  price : Option ℚ
  attempts : Nat
  delays : List Nat
deriving DecidableEq

/-- `get_current_price` (lines 53-87): a two-iteration retry loop over an
oracle giving the outcome of each attempt; every failure path falls
through to `return None`. -/
def getCurrentPrice (oracle : Nat → AttemptOutcome) : PriceFetch :=
  match attemptValue (oracle 0) with
  | some p => ⟨some p, 1, []⟩
  | none =>
    match attemptValue (oracle 1) with
    | some p => ⟨some p, 2, [failureDelay (oracle 0)]⟩
    | none => ⟨none, 2, [failureDelay (oracle 0)]⟩

/-- `analyze_ticker_dashboard` with the caller's frame threaded through:
the body only reads `options_df_for_period` (boolean-mask selections,
`sort_values` and `dropna` without `inplace`, each producing a fresh
frame), so the caller's binding is returned untouched alongside the
result. -/
def analyzeTickerDashboardTracked (p : Provider) (df : List TradeRecord)
    (startDate : Int) : List TradeRecord × List TickerRow :=
  (df, analyzeTickerDashboard p df startDate)

/-- `create_expiration_summary_table` with the caller's frame threaded
through: line 215 copies the input (`options_df_for_period.copy()`) and
every `inplace=True` mutation afterwards rebinds only that local copy. -/
def createExpirationSummaryTableTracked (df : List TradeRecord)
    (today : Int) : List TradeRecord × List ExpirationRow :=
  let callerDf := df
  let summaryDf := callerDf
  let summaryDf := keptForExpiration summaryDf
  (callerDf, expirationTableOfKept summaryDf today)

/-- The per-ticker records with a present premium, line 167
(`dropna(subset=['premium_usd'])`). -/
def cleanedFor (df : List TradeRecord) (t : String) : List TradeRecord :=
  (recordsForTicker df t).filter hasPremium

theorem summarizeTicker_ticker (p : Provider) (df : List TradeRecord)
    (s : Int) (t : String) : (summarizeTicker p df s t).ticker = t := rfl

theorem summarizeTicker_marketCap (p : Provider) (df : List TradeRecord)
    (s : Int) (t : String) :
    (summarizeTicker p df s t).marketCap = latestIngestedMcap df t := rfl

theorem summarizeTicker_totalPremium (p : Provider) (df : List TradeRecord)
    (s : Int) (t : String) :
    (summarizeTicker p df s t).totalPremium = premSum (cleanedFor df t) := rfl

theorem summarizeTicker_callPremium (p : Provider) (df : List TradeRecord)
    (s : Int) (t : String) :
    (summarizeTicker p df s t).callPremium
      = premSum ((cleanedFor df t).filter isCallA) := rfl

theorem summarizeTicker_putPremium (p : Provider) (df : List TradeRecord)
    (s : Int) (t : String) :
    (summarizeTicker p df s t).putPremium
      = premSum ((cleanedFor df t).filter isPutA) := rfl

theorem summarizeTicker_bullishPremium (p : Provider) (df : List TradeRecord)
    (s : Int) (t : String) :
    (summarizeTicker p df s t).bullishPremium
      = premSum ((cleanedFor df t).filter isBullishA) := rfl

theorem summarizeTicker_bearishPremium (p : Provider) (df : List TradeRecord)
    (s : Int) (t : String) :
    (summarizeTicker p df s t).bearishPremium
      = premSum ((cleanedFor df t).filter isBearishA) := rfl

theorem summarizeTicker_bullishScore (p : Provider) (df : List TradeRecord)
    (s : Int) (t : String) :
    (summarizeTicker p df s t).bullishScore
      = mcapScore (premSum ((cleanedFor df t).filter isBullishA))
          (mcapForCalc (latestIngestedMcap df t)) := rfl

theorem summarizeTicker_bearishScore (p : Provider) (df : List TradeRecord)
    (s : Int) (t : String) :
    (summarizeTicker p df s t).bearishScore
      = mcapScore (premSum ((cleanedFor df t).filter isBearishA))
          (mcapForCalc (latestIngestedMcap df t)) := rfl

/-- Every row of `analyze_ticker_dashboard` is the loop body's output for
some non-skipped ticker symbol. -/
theorem exists_of_mem_analyze {p : Provider} {df : List TradeRecord}
    {s : Int} {row : TickerRow} (h : row ∈ analyzeTickerDashboard p df s) :
    ∃ t, skipTicker t = false ∧ row = summarizeTicker p df s t := by
  unfold analyzeTickerDashboard at h
  by_cases hdf : df.isEmpty
  · rw [if_pos hdf] at h
    cases h
  · rw [if_neg hdf] at h
    rcases List.mem_map.mp h with ⟨t, ht, hrow⟩
    rcases List.mem_filter.mp ht with ⟨-, hskip⟩
    refine ⟨t, ?_, hrow.symm⟩
    simpa using hskip

theorem expirationGroupRow_expirationDate (today : Int)
    (kept : List TradeRecord) (d : Int) :
    (expirationGroupRow today kept d).expirationDate = d := rfl

theorem expirationGroupRow_daysToExpiry (today : Int)
    (kept : List TradeRecord) (d : Int) :
    (expirationGroupRow today kept d).daysToExpiry = d - today := rfl

theorem expirationGroupRow_totalPremium (today : Int)
    (kept : List TradeRecord) (d : Int) :
    (expirationGroupRow today kept d).totalPremium
      = premSum (groupRecords kept d) := rfl

theorem expirationGroupRow_callPremium (today : Int)
    (kept : List TradeRecord) (d : Int) :
    (expirationGroupRow today kept d).callPremium
      = premSum ((groupRecords kept d).filter isCallE) := rfl

theorem expirationGroupRow_putPremium (today : Int)
    (kept : List TradeRecord) (d : Int) :
    (expirationGroupRow today kept d).putPremium
      = premSum ((groupRecords kept d).filter isPutE) := rfl

/-- Every row of `create_expiration_summary_table` is the aggregate of one
expiration-date group of the kept records. -/
theorem exists_of_mem_expTable {df : List TradeRecord} {today : Int}
    {row : ExpirationRow} (h : row ∈ createExpirationSummaryTable df today) :
    ∃ d, row = expirationGroupRow today (keptForExpiration df) d := by
  unfold createExpirationSummaryTable expirationTableOfKept at h
  by_cases hk : (keptForExpiration df).isEmpty
  · rw [if_pos hk] at h
    cases h
  · rw [if_neg hk] at h
    rcases List.mem_map.mp ((List.mem_insertionSort daysLe).mp h) with ⟨d, -, hrow⟩
    exact ⟨d, hrow.symm⟩

theorem mcapForCalc_of_absent_or_nonpos {m : Option ℚ}
    (h : m = none ∨ ∃ v, m = some v ∧ v ≤ 0) : mcapForCalc m = 0 := by
  rcases h with h | ⟨v, hv, hvle⟩
  · rw [h]
    rfl
  · rw [hv]
    simp [mcapForCalc, not_lt.mpr hvle]

theorem mcapScore_zero_cap (prem : ℚ) : mcapScore prem 0 = 0 := by
  simp [mcapScore]

/-- Claim C1: in every row `analyze_ticker_dashboard` produces, if the
resolved market capitalization is absent or non-positive, both normalized
scores are exactly 0 (the guarded branch of lines 178-179 never divides). -/
theorem scores_zero_of_mcap_absent_or_nonpos (p : Provider)
    (df : List TradeRecord) (s : Int) (row : TickerRow)
    (hmem : row ∈ analyzeTickerDashboard p df s)
    (hcap : row.marketCap = none ∨ ∃ v, row.marketCap = some v ∧ v ≤ 0) :
    row.bullishScore = 0 ∧ row.bearishScore = 0 := by
  rcases exists_of_mem_analyze hmem with ⟨t, -, rfl⟩
  rw [summarizeTicker_marketCap] at hcap
  have hm := mcapForCalc_of_absent_or_nonpos hcap
  rw [summarizeTicker_bullishScore, summarizeTicker_bearishScore, hm]
  exact ⟨mcapScore_zero_cap _, mcapScore_zero_cap _⟩

/-- A provider whose lookups all fail: `get_current_price` returned `None`
and the history window was empty. -/
def trivProvider : Provider := ⟨fun _ => none, fun _ _ => []⟩

/-- A ticker with bullish premium 500 and a null ingested capitalization. -/
def recNoMcap : TradeRecord :=
  ⟨0, "TST", none, some "CALL", some "Bullish", some 500, none⟩

theorem scores_zero_of_mcap_absent_or_nonpos_witness :
    (summarizeTicker trivProvider [recNoMcap] 0 "TST").bullishScore = 0 ∧
      (summarizeTicker trivProvider [recNoMcap] 0 "TST").bearishScore = 0 :=
  scores_zero_of_mcap_absent_or_nonpos trivProvider [recNoMcap] 0 _
    (List.Mem.head _) (Or.inl rfl)

/-- Records whose ticker symbols differ only in letter case. -/
def recUpperCase : TradeRecord :=
  ⟨0, "AAPL", none, some "CALL", some "Bullish", some 100, none⟩

/-- Same underlying company as `recUpperCase`, lower-case symbol. -/
def recLowerCase : TradeRecord :=
  ⟨0, "aapl", none, some "CALL", some "Bullish", some 50, none⟩

/-- Claim C2, counterexample: two records whose tickers differ only in
case produce two separate summary rows, not one case-normalized row —
line 136 enumerates `unique()` values without case folding and line 148
filters by exact equality. -/
theorem case_variant_tickers_get_separate_rows :
    ((analyzeTickerDashboard trivProvider [recUpperCase, recLowerCase] 0).map
        (·.ticker)) = ["AAPL", "aapl"] ∧
      upperStr "aapl" = upperStr "AAPL" := by
  decide

/-- Claim C2 (amended): `analyze_ticker_dashboard` enumerates the distinct
ticker symbols by exact, case-sensitive string equality (skipping only
blank and 'nan' symbols); each row's premium sums cover exactly the
records whose ticker equals the row's ticker exactly, and every record
with a non-skipped ticker has a row for its exact symbol — so records
differing only in case are attributed to distinct rows. -/
theorem analyze_enumerates_exact_tickers (p : Provider)
    (df : List TradeRecord) (s : Int) :
    (∀ row ∈ analyzeTickerDashboard p df s,
      skipTicker row.ticker = false ∧
        row.totalPremium
          = premSum ((recordsForTicker df row.ticker).filter hasPremium)) ∧
    (∀ rec ∈ df, skipTicker rec.underlyingTicker = false →
      ∃ row ∈ analyzeTickerDashboard p df s,
        row.ticker = rec.underlyingTicker) := by
  constructor
  · intro row hmem
    rcases exists_of_mem_analyze hmem with ⟨t, hskip, rfl⟩
    rw [summarizeTicker_ticker, summarizeTicker_totalPremium]
    exact ⟨hskip, rfl⟩
  · intro rec hrec hskip
    have hdf : df.isEmpty = false :=
      List.isEmpty_eq_false.mpr (List.ne_nil_of_mem hrec)
    refine ⟨summarizeTicker p df s rec.underlyingTicker, ?_,
      summarizeTicker_ticker p df s rec.underlyingTicker⟩
    unfold analyzeTickerDashboard
    rw [hdf]
    simp only [Bool.false_eq_true, if_false]
    apply List.mem_map_of_mem
    apply List.mem_filter.mpr
    refine ⟨?_, by simp [hskip]⟩
    apply (List.mem_insertionSort tickLe).mpr
    rw [mem_distinctInOrder]
    exact List.mem_map_of_mem (·.underlyingTicker) hrec

theorem analyze_enumerates_exact_tickers_witness :
    skipTicker
        (summarizeTicker trivProvider [recUpperCase, recLowerCase] 0 "AAPL").ticker
        = false ∧
      (summarizeTicker trivProvider [recUpperCase, recLowerCase] 0 "AAPL").totalPremium
        = premSum ((recordsForTicker [recUpperCase, recLowerCase]
            (summarizeTicker trivProvider [recUpperCase, recLowerCase] 0 "AAPL").ticker).filter
              hasPremium) :=
  (analyze_enumerates_exact_tickers trivProvider [recUpperCase, recLowerCase] 0).1
    _ (List.Mem.head _)

/-- The fields of a ticker row that the normalized-score computation
produces: symbol, resolved capitalization and the two scores. -/
def scoreView (r : TickerRow) : String × Option ℚ × ℚ × ℚ :=
  (r.ticker, r.marketCap, r.bullishScore, r.bearishScore)

/-- Claim C3: the capitalization reported in a summary row and used for
the normalized scores is the ingested capitalization of the ticker's most
recent record in range (ordered by data date) — independent of the live
market-data provider, which never enters those fields. -/
theorem mcap_used_is_latest_ingested (p₁ p₂ : Provider)
    (df : List TradeRecord) (s₁ s₂ : Int) :
    ((analyzeTickerDashboard p₁ df s₁).map scoreView
      = (analyzeTickerDashboard p₂ df s₂).map scoreView) ∧
    (∀ row ∈ analyzeTickerDashboard p₁ df s₁,
      row.marketCap = latestIngestedMcap df row.ticker ∧
      row.bullishScore = mcapScore row.bullishPremium
        (mcapForCalc (latestIngestedMcap df row.ticker)) ∧
      row.bearishScore = mcapScore row.bearishPremium
        (mcapForCalc (latestIngestedMcap df row.ticker)) ∧
      ∀ m, latestIngestedMcap df row.ticker = some m →
        ∃ rec ∈ recordsForTicker df row.ticker,
          rec.marketCapIngested = some m ∧
          ∀ rec₂ ∈ recordsForTicker df row.ticker,
            rec₂.dataDate ≤ rec.dataDate) := by
  constructor
  · unfold analyzeTickerDashboard
    by_cases hdf : df.isEmpty
    · rw [if_pos hdf, if_pos hdf]
    · rw [if_neg hdf, if_neg hdf, List.map_map, List.map_map]
      exact List.map_congr_left (fun t _ => rfl)
  · intro row hmem
    rcases exists_of_mem_analyze hmem with ⟨t, -, rfl⟩
    rw [summarizeTicker_ticker, summarizeTicker_marketCap,
      summarizeTicker_bullishScore, summarizeTicker_bearishScore,
      summarizeTicker_bullishPremium, summarizeTicker_bearishPremium]
    refine ⟨rfl, rfl, rfl, ?_⟩
    intro m hm
    unfold latestIngestedMcap at hm
    rcases hsort : List.insertionSort dataDateGe (recordsForTicker df t) with
      _ | ⟨r, rest⟩
    · rw [hsort] at hm
      cases hm
    · rw [hsort] at hm
      refine ⟨r, ?_, hm, ?_⟩
      · exact (List.mem_insertionSort dataDateGe).mp (hsort ▸ List.Mem.head rest)
      · intro rec₂ hrec₂
        have hs := List.sorted_insertionSort dataDateGe (recordsForTicker df t)
        rw [hsort] at hs
        have hmem₂ := (List.mem_insertionSort dataDateGe (l := recordsForTicker df t)).mpr hrec₂
        rw [hsort] at hmem₂
        rcases List.mem_cons.mp hmem₂ with h | h
        · rw [h]
        · exact (List.sorted_cons.mp hs).1 rec₂ h

/-- Two records of one ticker on different data dates: the later one
carries ingested capitalization 7. -/
def recEarlier : TradeRecord := ⟨1, "TST", none, none, none, some 10, some 5⟩

/-- The most recent record of the ticker. -/
def recLater : TradeRecord := ⟨2, "TST", none, none, none, some 20, some 7⟩

theorem mcap_used_is_latest_ingested_witness :
    (summarizeTicker trivProvider [recEarlier, recLater] 0 "TST").marketCap
      = latestIngestedMcap [recEarlier, recLater]
          (summarizeTicker trivProvider [recEarlier, recLater] 0 "TST").ticker :=
  (((mcap_used_is_latest_ingested trivProvider trivProvider
    [recEarlier, recLater] 0 0).2 _ (List.Mem.head _))).1

/-- Premium of the records of one ticker whose option type neither side of
the case-insensitive call/put match of lines 175-176 recognizes. -/
def unrecognizedTypePremiumA (df : List TradeRecord) (t : String) : ℚ :=
  premSum ((cleanedFor df t).filter (fun r => !isCallA r && !isPutA r))

/-- Premium of the records of one expiration group whose option type
neither exact match of lines 221-222 recognizes. -/
def unrecognizedTypePremiumE (kept : List TradeRecord) (d : Int) : ℚ :=
  premSum ((groupRecords kept d).filter (fun r => !isCallE r && !isPutE r))

theorem isCallA_isPutA_disjoint (r : TradeRecord) :
    isCallA r = true → isPutA r = true → False := by
  intro h1 h2
  rw [isCallA, beq_iff_eq] at h1
  rw [isPutA, beq_iff_eq] at h2
  exact (by decide : (some "CALL" : Option String) ≠ some "PUT") (h1.symm.trans h2)

theorem isCallE_isPutE_disjoint (r : TradeRecord) :
    isCallE r = true → isPutE r = true → False := by
  intro h1 h2
  rw [isCallE, beq_iff_eq] at h1
  rw [isPutE, beq_iff_eq] at h2
  exact (by decide : (some "CALL" : Option String) ≠ some "PUT") (h1.symm.trans h2)

theorem isCallA_of_optionType_CALL {r : TradeRecord}
    (h : r.optionType = some "CALL") : isCallA r = true := by
  rw [isCallA, h]
  decide

theorem isPutA_of_optionType_PUT {r : TradeRecord}
    (h : r.optionType = some "PUT") : isPutA r = true := by
  rw [isPutA, h]
  decide

theorem mem_df_of_mem_cleanedFor {df : List TradeRecord} {t : String}
    {r : TradeRecord} (h : r ∈ cleanedFor df t) : r ∈ df :=
  (List.mem_filter.mp (List.mem_filter.mp h).1).1

theorem mem_df_of_mem_groupRecords {df : List TradeRecord} {d : Int}
    {r : TradeRecord} (h : r ∈ groupRecords (keptForExpiration df) d) : r ∈ df :=
  (List.mem_filter.mp (List.mem_filter.mp h).1).1

/-- Claim C4: in both summary tables each row's total premium is its call
premium plus its put premium plus the premium of the row's records with an
unrecognized option type; when every record's option type is exactly
'CALL' or 'PUT' that remainder vanishes, so total = call + put in every
row of both tables. -/
theorem total_premium_splits_by_option_type (p : Provider)
    (df : List TradeRecord) (s today : Int) :
    (∀ row ∈ analyzeTickerDashboard p df s,
      row.totalPremium = row.callPremium + row.putPremium
        + unrecognizedTypePremiumA df row.ticker) ∧
    (∀ row ∈ createExpirationSummaryTable df today,
      row.totalPremium = row.callPremium + row.putPremium
        + unrecognizedTypePremiumE (keptForExpiration df) row.expirationDate) ∧
    ((∀ r ∈ df, r.optionType = some "CALL" ∨ r.optionType = some "PUT") →
      (∀ row ∈ analyzeTickerDashboard p df s,
        row.totalPremium = row.callPremium + row.putPremium) ∧
      (∀ row ∈ createExpirationSummaryTable df today,
        row.totalPremium = row.callPremium + row.putPremium)) := by
  have hA : ∀ row ∈ analyzeTickerDashboard p df s,
      row.totalPremium = row.callPremium + row.putPremium
        + unrecognizedTypePremiumA df row.ticker := by
    intro row hmem
    rcases exists_of_mem_analyze hmem with ⟨t, -, rfl⟩
    rw [summarizeTicker_ticker, summarizeTicker_totalPremium,
      summarizeTicker_callPremium, summarizeTicker_putPremium]
    exact premSum_filter_split isCallA isPutA isCallA_isPutA_disjoint _
  have hE : ∀ row ∈ createExpirationSummaryTable df today,
      row.totalPremium = row.callPremium + row.putPremium
        + unrecognizedTypePremiumE (keptForExpiration df) row.expirationDate := by
    intro row hmem
    rcases exists_of_mem_expTable hmem with ⟨d, rfl⟩
    rw [expirationGroupRow_expirationDate, expirationGroupRow_totalPremium,
      expirationGroupRow_callPremium, expirationGroupRow_putPremium]
    exact premSum_filter_split isCallE isPutE isCallE_isPutE_disjoint _
  refine ⟨hA, hE, fun htyped => ⟨?_, ?_⟩⟩
  · intro row hmem
    rw [hA row hmem]
    have hz : unrecognizedTypePremiumA df row.ticker = 0 := by
      unfold unrecognizedTypePremiumA
      rw [List.filter_eq_nil_iff.mpr, premSum_nil]
      intro r hr
      rcases htyped r (mem_df_of_mem_cleanedFor hr) with h | h
      · simp [isCallA_of_optionType_CALL h]
      · simp [isPutA_of_optionType_PUT h]
    rw [hz, add_zero]
  · intro row hmem
    rw [hE row hmem]
    have hz : unrecognizedTypePremiumE (keptForExpiration df)
        row.expirationDate = 0 := by
      unfold unrecognizedTypePremiumE
      rw [List.filter_eq_nil_iff.mpr, premSum_nil]
      intro r hr
      rcases htyped r (mem_df_of_mem_groupRecords hr) with h | h
      · simp [isCallE, h]
      · simp [isPutE, h]
    rw [hz, add_zero]

/-- A call and a put record of one ticker with one expiration date. -/
def recCallTyped : TradeRecord :=
  ⟨0, "TST", some 10, some "CALL", some "Bullish", some 100, none⟩

/-- The put-side companion of `recCallTyped`. -/
def recPutTyped : TradeRecord :=
  ⟨0, "TST", some 10, some "PUT", some "Bearish", some 40, none⟩

theorem total_premium_splits_by_option_type_witness :
    (summarizeTicker trivProvider [recCallTyped, recPutTyped] 0 "TST").totalPremium
      = (summarizeTicker trivProvider [recCallTyped, recPutTyped] 0 "TST").callPremium
        + (summarizeTicker trivProvider [recCallTyped, recPutTyped] 0 "TST").putPremium :=
  ((total_premium_splits_by_option_type trivProvider
      [recCallTyped, recPutTyped] 0 5).2.2
    (by decide)).1 _ (List.Mem.head _)

/-- Claim C5: when the first `get_current_price` attempt fails (empty
result or exception), exactly one retry runs after the fixed sleep of that
failure kind (5s empty / 15s exception), and when both attempts fail the
function returns `None` instead of raising. -/
theorem price_fetch_retries_once_then_absent (oracle : Nat → AttemptOutcome)
    (hfail : attemptValue (oracle 0) = none) :
    (getCurrentPrice oracle).attempts = 2 ∧
    (getCurrentPrice oracle).delays = [failureDelay (oracle 0)] ∧
    (failureDelay (oracle 0) = 5 ∨ failureDelay (oracle 0) = 15) ∧
    (attemptValue (oracle 1) = none → (getCurrentPrice oracle).price = none) := by
  have hdelay : failureDelay (oracle 0) = 5 ∨ failureDelay (oracle 0) = 15 := by
    cases oracle 0
    · exact Or.inr rfl
    · exact Or.inl rfl
  unfold getCurrentPrice
  rw [hfail]
  cases h1 : attemptValue (oracle 1)
  · exact ⟨rfl, rfl, hdelay, fun _ => rfl⟩
  · exact ⟨rfl, rfl, hdelay, fun hcontra => Option.noConfusion hcontra⟩

/-- An oracle both of whose attempts return an empty result (no fast-info
price, empty history window). -/
def allEmptyOracle : Nat → AttemptOutcome := fun _ => AttemptOutcome.data none []

theorem price_fetch_retries_once_then_absent_witness :
    (getCurrentPrice allEmptyOracle).attempts = 2 ∧
      (getCurrentPrice allEmptyOracle).price = none :=
  ⟨(price_fetch_retries_once_then_absent allEmptyOracle rfl).1,
    (price_fetch_retries_once_then_absent allEmptyOracle rfl).2.2.2 rfl⟩

/-- Claim C6: `create_expiration_summary_table` is a pure function of the
filtered record set and the current date — two runs over the same set with
the same current date give row-for-row identical tables (its row type
carries no live-price field and the function consults no provider). -/
theorem expiration_summary_idempotent (df₁ df₂ : List TradeRecord)
    (today₁ today₂ : Int) (hdf : df₁ = df₂) (htoday : today₁ = today₂) :
    createExpirationSummaryTable df₁ today₁
      = createExpirationSummaryTable df₂ today₂ := by
  rw [hdf, htoday]

theorem expiration_summary_idempotent_witness :
    createExpirationSummaryTable [recCallTyped, recPutTyped] 3
      = createExpirationSummaryTable [recCallTyped, recPutTyped] 3 :=
  expiration_summary_idempotent [recCallTyped, recPutTyped]
    [recCallTyped, recPutTyped] 3 3 rfl rfl

/-- Claim C7: records with an unparseable expiration date or a missing
premium are dropped before grouping (adding such a record leaves the table
unchanged), and the emitted groups are sorted by days-to-expiry ascending. -/
theorem expiration_summary_drops_and_sorts (df : List TradeRecord)
    (today : Int) :
    List.Pairwise daysLe (createExpirationSummaryTable df today) ∧
    (∀ r : TradeRecord, r.expirationDate = none ∨ r.premiumUsd = none →
      createExpirationSummaryTable (r :: df) today
        = createExpirationSummaryTable df today) := by
  constructor
  · unfold createExpirationSummaryTable expirationTableOfKept
    by_cases hk : (keptForExpiration df).isEmpty
    · rw [if_pos hk]
      exact List.Pairwise.nil
    · rw [if_neg hk]
      exact List.sorted_insertionSort daysLe _
  · intro r hbad
    have hkeep : keptForExpiration (r :: df) = keptForExpiration df := by
      have hcond : (r.expirationDate.isSome && r.premiumUsd.isSome) = false := by
        rcases hbad with h | h <;> simp [h]
      unfold keptForExpiration
      rw [List.filter_cons, hcond]
      simp
    unfold createExpirationSummaryTable
    rw [hkeep]

/-- A record whose expiration date failed to parse (`NaT` after the
`errors='coerce'` conversion). -/
def recBadExpiration : TradeRecord :=
  ⟨0, "TST", none, some "CALL", some "Bullish", some 25, none⟩

theorem expiration_summary_drops_and_sorts_witness :
    createExpirationSummaryTable
        (recBadExpiration :: [recCallTyped, recPutTyped]) 3
      = createExpirationSummaryTable [recCallTyped, recPutTyped] 3 :=
  (expiration_summary_drops_and_sorts [recCallTyped, recPutTyped] 3).2
    recBadExpiration (Or.inl rfl)

/-- Claim C8: the range query's date filter is inclusive on both ends — a
stored record dated exactly at the start or at the end boundary of a valid
range appears (normalized) in the fetched set. -/
theorem fetch_range_inclusive_boundaries (store : List TradeRecord)
    (startDate endDate : Int) (r : TradeRecord) (hmem : r ∈ store)
    (hrange : startDate ≤ endDate)
    (hboundary : r.dataDate = startDate ∨ r.dataDate = endDate) :
    normalizeFetchedRow r ∈ fetchOptionsActivityForRange store startDate endDate := by
  unfold fetchOptionsActivityForRange
  apply List.mem_map_of_mem
  apply (List.mem_insertionSort fetchRowLe).mpr
  apply List.mem_filter.mpr
  refine ⟨hmem, ?_⟩
  rcases hboundary with h | h <;> simp [h, hrange]

/-- A record dated exactly at the start boundary of the queried range. -/
def recAtBoundary : TradeRecord :=
  ⟨3, "TST", some 10, some "CALL", some "Bullish", none, none⟩

theorem fetch_range_inclusive_boundaries_witness :
    normalizeFetchedRow recAtBoundary
      ∈ fetchOptionsActivityForRange [recAtBoundary] 3 7 :=
  fetch_range_inclusive_boundaries [recAtBoundary] 3 7 recAtBoundary
    (List.Mem.head _) (by decide) (Or.inl rfl)

/-- A labelled single-expiration record with the given option type and
sentiment strings (premium present, capitalization null). -/
def mkLabeledRec (dd : Int) (tick : String) (d : Int) (ot sent : String)
    (q : ℚ) : TradeRecord :=
  ⟨dd, tick, some d, some ot, some sent, some q, none⟩

/-- A record whose option type carries a leading space: its trimmed
uppercase form is 'CALL'. -/
def recPaddedCall : TradeRecord :=
  ⟨0, "TST", none, some " CALL", some "Bullish", some 100, none⟩

/-- Claim C9, counterexample: `analyze_ticker_dashboard` does not trim the
option type before matching (line 175 only uppercases) — a record whose
option type trims and uppercases to 'CALL' still contributes nothing to
the call premium. -/
theorem analyze_does_not_trim_option_type :
    ((analyzeTickerDashboard trivProvider [recPaddedCall] 0).map
        (·.callPremium)) = [0] ∧
      upperStr (trimStr " CALL") = "CALL" ∧
      recPaddedCall.optionType = some " CALL" ∧
      recPaddedCall.premiumUsd = some 100 :=
  ⟨rfl, by decide, rfl, rfl⟩

/-- Claim C9 (amended): `create_expiration_summary_table` matches option
type and sentiment by exact, case-sensitive comparison ('CALL', 'PUT',
'Bullish', 'Bearish') — a record with sentiment 'BULLISH' and option type
'call' lands in its group's total premium and record count but in none of
the four splits — unlike `analyze_ticker_dashboard`, which matches
sentiment case-insensitively after trimming and option type
case-insensitively without trimming. -/
theorem expiration_splits_exact_vs_analyze_insensitive (p : Provider)
    (today d dd s : Int) (tick : String) (q : ℚ)
    (hskip : skipTicker tick = false) :
    createExpirationSummaryTable [mkLabeledRec dd tick d "call" "BULLISH" q] today
      = [⟨d, d - today, q, 1, 0, 0, 0, 0, 1⟩] ∧
    ((analyzeTickerDashboard p [mkLabeledRec dd tick d "call" "BULLISH" q] s).map
        (fun r => (r.totalPremium, r.callPremium, r.bullishPremium, r.bearishPremium)))
      = [(q, q, q, 0)] ∧
    ((analyzeTickerDashboard p [mkLabeledRec dd tick d " CALL" "BULLISH" q] s).map
        (fun r => (r.totalPremium, r.callPremium)))
      = [(q, 0)] := by
  have hCallUp : isCallA (mkLabeledRec dd tick d "call" "BULLISH" q) = true := rfl
  have hPutUp : isPutA (mkLabeledRec dd tick d "call" "BULLISH" q) = false := rfl
  have hBullUp : isBullishA (mkLabeledRec dd tick d "call" "BULLISH" q) = true := rfl
  have hBearUp : isBearishA (mkLabeledRec dd tick d "call" "BULLISH" q) = false := rfl
  have hCallPad : isCallA (mkLabeledRec dd tick d " CALL" "BULLISH" q) = false := rfl
  have hCallEx : isCallE (mkLabeledRec dd tick d "call" "BULLISH" q) = false := rfl
  have hPutEx : isPutE (mkLabeledRec dd tick d "call" "BULLISH" q) = false := rfl
  have hBullEx : isBullishE (mkLabeledRec dd tick d "call" "BULLISH" q) = false := rfl
  have hBearEx : isBearishE (mkLabeledRec dd tick d "call" "BULLISH" q) = false := rfl
  have hPrem : hasPremium (mkLabeledRec dd tick d "call" "BULLISH" q) = true := rfl
  have hPremPad : hasPremium (mkLabeledRec dd tick d " CALL" "BULLISH" q) = true := rfl
  have hpremof : premOf (mkLabeledRec dd tick d "call" "BULLISH" q) = q := rfl
  have hpremofPad : premOf (mkLabeledRec dd tick d " CALL" "BULLISH" q) = q := rfl
  have hticker : (mkLabeledRec dd tick d "call" "BULLISH" q).underlyingTicker = tick := rfl
  have hsingle : ∀ ot sent, uniqueTickersSorted [mkLabeledRec dd tick d ot sent q] = [tick] := by
    intro ot sent
    simp [uniqueTickersSorted, distinctInOrder, distinctAux, mkLabeledRec,
      List.insertionSort, List.orderedInsert]
  have hrows : ∀ ot sent,
      analyzeTickerDashboard p [mkLabeledRec dd tick d ot sent q] s
        = [summarizeTicker p [mkLabeledRec dd tick d ot sent q] s tick] := by
    intro ot sent
    unfold analyzeTickerDashboard
    rw [hsingle ot sent]
    simp [hskip]
  have hclean : ∀ ot sent,
      cleanedFor [mkLabeledRec dd tick d ot sent q] tick
        = [mkLabeledRec dd tick d ot sent q] := by
    intro ot sent
    simp [cleanedFor, recordsForTicker, hasPremium, mkLabeledRec]
  refine ⟨?_, ?_, ?_⟩
  · have hkept : keptForExpiration [mkLabeledRec dd tick d "call" "BULLISH" q]
        = [mkLabeledRec dd tick d "call" "BULLISH" q] := rfl
    have hkeys : expirationKeys [mkLabeledRec dd tick d "call" "BULLISH" q] = [d] := by
      simp [expirationKeys, distinctInOrder, distinctAux, mkLabeledRec,
        List.insertionSort, List.orderedInsert, List.filterMap_cons]
    have hgroup : groupRecords [mkLabeledRec dd tick d "call" "BULLISH" q] d
        = [mkLabeledRec dd tick d "call" "BULLISH" q] := by
      simp [groupRecords, mkLabeledRec]
    unfold createExpirationSummaryTable
    rw [hkept]
    unfold expirationTableOfKept
    rw [if_neg (by simp)]
    rw [hkeys]
    simp only [List.map_cons, List.map_nil, List.insertionSort, List.orderedInsert]
    have : expirationGroupRow today [mkLabeledRec dd tick d "call" "BULLISH" q] d
        = ⟨d, d - today, q, 1, 0, 0, 0, 0, 1⟩ := by
      unfold expirationGroupRow
      rw [hgroup]
      simp [List.filter_cons, hCallEx, hPutEx, hBullEx, hBearEx,
        premSum_cons, premSum_nil, hpremof, hticker,
        distinctInOrder, distinctAux]
    rw [this]
  · rw [hrows "call" "BULLISH"]
    simp only [List.map_cons, List.map_nil, summarizeTicker_totalPremium,
      summarizeTicker_callPremium, summarizeTicker_bullishPremium,
      summarizeTicker_bearishPremium, hclean]
    simp [List.filter_cons, hCallUp, hBullUp, hBearUp, hPutUp,
      premSum_cons, premSum_nil, hpremof]
  · rw [hrows " CALL" "BULLISH"]
    simp only [List.map_cons, List.map_nil, summarizeTicker_totalPremium,
      summarizeTicker_callPremium, hclean]
    simp [List.filter_cons, hCallPad, premSum_cons, premSum_nil, hpremofPad]

theorem expiration_splits_exact_vs_analyze_insensitive_witness :
    createExpirationSummaryTable [mkLabeledRec 0 "TST" 10 "call" "BULLISH" 100] 3
      = [⟨10, 10 - 3, 100, 1, 0, 0, 0, 0, 1⟩] ∧
    ((analyzeTickerDashboard trivProvider
        [mkLabeledRec 0 "TST" 10 "call" "BULLISH" 100] 0).map
        (fun r => (r.totalPremium, r.callPremium, r.bullishPremium, r.bearishPremium)))
      = [(100, 100, 100, 0)] ∧
    ((analyzeTickerDashboard trivProvider
        [mkLabeledRec 0 "TST" 10 " CALL" "BULLISH" 100] 0).map
        (fun r => (r.totalPremium, r.callPremium)))
      = [(100, 0)] :=
  expiration_splits_exact_vs_analyze_insensitive trivProvider 3 10 0 0 "TST" 100 rfl

/-- Claim C10: neither aggregation routine mutates its input — with the
caller's frame threaded explicitly, both tracked variants return the
caller's record set unchanged next to the same result the untracked
functions compute (`analyze_ticker_dashboard` only reads and filters,
`create_expiration_summary_table` mutates only its line-215 copy). -/
theorem aggregation_leaves_input_unchanged (p : Provider)
    (df : List TradeRecord) (s today : Int) :
    (analyzeTickerDashboardTracked p df s).1 = df ∧
    (analyzeTickerDashboardTracked p df s).2 = analyzeTickerDashboard p df s ∧
    (createExpirationSummaryTableTracked df today).1 = df ∧
    (createExpirationSummaryTableTracked df today).2
      = createExpirationSummaryTable df today :=
  ⟨rfl, rfl, rfl, rfl⟩

end Dashboard
